import Mathlib

/-!
Verification of the graph-construction core of the RETURNN TF layer module
(`TFNetworkLayer.py`).  The Python code is shallowly embedded: tensor
descriptors (`Data` objects) become records, tensor handles become symbolic
expression trees, Python dicts become association lists or functions into
`Option`, assertions and raises become `Except`, and the mutable
network-level concatenation/dropout cache becomes explicit state passing
over a heap of descriptor addresses (so that object identity, `.copy()`
and in-place mutation are all observable).
-/

set_option maxHeartbeats 1000000

/-- Python truthiness of an optional string (`None` and `""` are falsy). -/
def strOptTruthy : Option String → Bool
  | none => false
  | some s => s ≠ ""

/-- Python truthiness of an optional rational (`None` and `0.0` are falsy). -/
def ratOptTruthy : Option ℚ → Bool
  | none => false
  | some q => q ≠ 0

/-- Python truthiness of an optional int (`None` and `0` are falsy). -/
def intOptTruthy : Option Int → Bool
  | none => false
  | some i => i ≠ 0

/-- Python `str.lower()` (kernel-evaluable characterwise lowering). -/
def pyLower (s : String) : String := String.mk (s.data.map Char.toLower)

/-- Python `str.upper()` (kernel-evaluable characterwise raising). -/
def pyUpper (s : String) : String := String.mk (s.data.map Char.toUpper)

/-- First-match association-list lookup, the model of Python `dict`
membership / subscript for our explicit stores. -/
def alookup {α β : Type} [DecidableEq α] (k : α) : List (α × β) → Option β
  | [] => none
  | (a, b) :: t => if a = k then some b else alookup k t

theorem alookup_mem {α β : Type} [DecidableEq α] {k : α} {b : β} :
    ∀ {l : List (α × β)}, alookup k l = some b → (k, b) ∈ l := by
  intro l
  induction l with
  | nil => intro h; simp [alookup] at h
  | cons p t ih =>
    intro h
    simp only [alookup] at h
    split at h
    · rename_i heq
      cases h
      cases p
      simp_all
    · right; exact ih h

/-- Symbolic tensor handles (`tf.Tensor` values appearing as descriptor
placeholders).  Only the structure built by the embedded code matters. -/
inductive PH where
  /-- an externally supplied placeholder -/
  | externPH (id : Nat)
  /-- `Data.get_placeholder_with_specific_batch_dim_axis(axis)` applied to a
  source placeholder (an opaque layout adjustment) -/
  | withBatchAxis (axis : Option Nat) (inner : PH)
  /-- `tf.concat(axis=..., values=...)` -/
  | concatPH (axis : Nat) (parts : List PH)
  /-- `network.cond_on_train(dropout-branch, identity-branch)`: the dropout
  branch holds `keep_prob = 1 - dropout` and the drawn random seed -/
  | condOnTrain (keepProb : ℚ) (seed : Nat) (inner : PH)
  /-- `tf.log(x)` -/
  | logPH (inner : PH)

/-- The descriptor value type: the attributes of a `TFUtil.Data` object that
the embedded code reads or writes.  `shape` is without the batch dim, with
`none` for a dynamic axis; `size_placeholder` maps an axis index (counted
without the batch dim) to an opaque length-tensor id. -/
structure DataVal where
  name : String
  shape : List (Option Nat)
  dim : Nat
  sparse : Bool
  dtype : String
  batch_dim_axis : Option Nat
  time_dim_axis : Option Nat
  placeholder : Option PH
  size_placeholder : List (Nat × Nat)

/-- Modelled from the spec: conversion of an axis index counted with the
batch dim into the convention that skips the batch axis (the spec's
`dynamic_lengths` mapping and `time_axis` bookkeeping use both conventions;
`TFUtil.Data.get_batch_axis_excluding_batch` is not part of this repository
slice). -/
def axisExcludingBatch (batch : Option Nat) (axis : Nat) : Option Nat :=
  match batch with
  | none => some axis
  | some b => if axis = b then none else if b < axis then some (axis - 1) else some axis

/-- Modelled from the spec: `Data.time_dim_axis_excluding_batch`, the time
axis index in the convention that skips the batch axis. -/
def DataVal.time_excl_batch (d : DataVal) : Option Nat :=
  match d.time_dim_axis with
  | none => none
  | some t => axisExcludingBatch d.batch_dim_axis t

/-- `assert shape[-1]` on one source: the last static shape entry must exist
and be a non-zero int (`shape[-1]` on an empty tuple is an IndexError, a
`None` or `0` entry fails the assert). -/
def lastDimChecked (d : DataVal) : Except String Nat :=
  match d.shape.getLast? with
  | none => .error "IndexError: tuple index out of range"
  | some none => .error "source last-dim must be specified"
  | some (some 0) => .error "source last-dim must be specified"
  | some (some m) => .ok m

/-- The last static shape entry of a source, read totally (for stating the
feature-dimension sum). -/
def lastStaticDim (d : DataVal) : Nat :=
  ((d.shape.getLast?).getD none).getD 0

/-- The `dim` accumulation loop of `get_concat_sources_data_template`:
`dim += layer.output.shape[-1]` with `assert shape[-1]` per source. -/
def sumSourceDims : List DataVal → Except String Nat
  | [] => .ok 0
  | d :: t =>
    match lastDimChecked d with
    | .error e => .error e
    | .ok m =>
      match sumSourceDims t with
      | .error e => .error e
      | .ok r => .ok (m + r)

/-- The descriptor value the template function builds: shape of the first
source with the last entry replaced by the summed dim, dense, conventions
from the first source, no placeholders. -/
def concatTemplateVal (s0 : DataVal) (dim : Nat) : DataVal :=
  { name := "concat_sources"
    shape := s0.shape.dropLast ++ [some dim]
    dim := dim
    sparse := false
    batch_dim_axis := s0.batch_dim_axis
    time_dim_axis := s0.time_dim_axis
    dtype := s0.dtype
    placeholder := none
    size_placeholder := [] }

/-- `get_concat_sources_data_template(src_layers)`: the concatenated
descriptor template (no placeholders set), feature dim the sum of the
sources' last shape entries, all other conventions from the first source. -/
def get_concat_sources_data_template (srcs : List DataVal) : Except String DataVal :=
  match srcs with
  | [] => .error "need source layers"
  | s0 :: _ =>
    match sumSourceDims srcs with
    | .error e => .error e
    | .ok dim => .ok (concatTemplateVal s0 dim)

/-- The per-source assertion block of `concat_sources` (sparse / dtype /
time-axis-convention / shape checks against the template `data`).  The
tf-level rank assertion `placeholder.get_shape().ndims == len(shape)+1`
reads the placeholder, which the descriptor embedding represents by
requiring the placeholder to be present. -/
def checkSourceForConcat (data : DataVal) (prefixShape : List (Option Nat))
    (o : DataVal) : Except String Unit :=
  if o.sparse then .error "sparse concat not supported"
  else if o.dtype ≠ data.dtype then .error "incompatible dtype with layer"
  else if o.time_excl_batch ≠ data.time_excl_batch then .error "time axis mismatch"
  else
    match o.placeholder with
    | none => .error "AttributeError: placeholder is None"
    | some _ =>
      if o.shape = [] then .error "source must not be a scalar of layer"
      else if o.shape.dropLast ≠ prefixShape then .error "incompatible concat with layer"
      else
        match o.shape.getLast? with
        | some (some m) =>
          if m = 0 then .error "source last-dim must be specified of layer" else .ok ()
        | _ => .error "source last-dim must be specified of layer"

/-- The `for layer in src_layers` assertion loop of `concat_sources`. -/
def checkSources (data : DataVal) (prefixShape : List (Option Nat)) :
    List DataVal → Except String Unit
  | [] => .ok ()
  | o :: t =>
    match checkSourceForConcat data prefixShape o with
    | .error e => .error e
    | .ok _ => checkSources data prefixShape t

/-- The `values=[layer.output.get_placeholder_with_specific_batch_dim_axis(..)]`
list of the `tf.concat` call. -/
def gatherPlaceholders (axis : Option Nat) : List DataVal → Except String (List PH)
  | [] => .ok []
  | o :: t =>
    match o.placeholder with
    | none => .error "AttributeError: placeholder is None"
    | some p =>
      match gatherPlaceholders axis t with
      | .error e => .error e
      | .ok r => .ok (PH.withBatchAxis axis p :: r)

/-- The pure value core of `concat_sources` for two or more sources (the
template construction, the assertion loop, the `tf.concat` placeholder and
the `size_placeholder` copy from the first source); the caching and object
identity around it live in the stateful wrapper below. -/
def concat_sources_core (srcs : List DataVal) : Except String DataVal :=
  match srcs with
  | [] => .error "need source layers"
  | s0 :: _ =>
    match get_concat_sources_data_template srcs with
    | .error e => .error e
    | .ok data =>
      let prefixShape := data.shape.dropLast
      match checkSources data prefixShape srcs with
      | .error e => .error e
      | .ok _ =>
        match gatherPlaceholders data.batch_dim_axis srcs with
        | .error e => .error e
        | .ok parts =>
          .ok { data with
                placeholder := some (PH.concatPH (prefixShape.length + 1) parts)
                size_placeholder := s0.size_placeholder }

/-- A layer reference: its Python object identity (`id`, used in the cache
key `tuple(src_layers)`) and the heap address of its `output` descriptor. -/
structure Layer where
  id : Nat
  outputAddr : Nat
deriving DecidableEq

/-- The network's tri-state `train_flag` (`True` / `False` / a runtime
condition tensor); `network.train_flag is False` tests for the second. -/
inductive TrainFlag where
  | isTrue
  | isFalse
  | dynamic
deriving DecidableEq

/-- The mutable state the two concatenation functions touch: the heap of
descriptor objects (addresses to values, newest binding first), the
allocation counter, the network's `concat_sources_dropout_cache` keyed by
`(tuple(src_layers), float(dropout))`, the count of random seeds drawn from
`network.random`, and the train flag. -/
structure ConcatState where
  heap : List (Nat × DataVal)
  next : Nat
  cache : List ((List Nat × ℚ) × Nat)
  rngCalls : Nat
  trainFlag : TrainFlag

/-- Read a descriptor object. -/
def heapGet (s : ConcatState) (a : Nat) : Option DataVal :=
  alookup a s.heap

/-- Allocate a fresh descriptor object (object creation and `.copy()`). -/
def allocD (s : ConcatState) (v : DataVal) : Nat × ConcatState :=
  (s.next, { s with heap := (s.next, v) :: s.heap, next := s.next + 1 })

/-- Overwrite the descriptor object at an existing address (in-place
attribute mutation). -/
def heapSet (s : ConcatState) (a : Nat) (v : DataVal) : ConcatState :=
  { s with heap := (a, v) :: s.heap }

/-- Cache lookup (`key in network.concat_sources_dropout_cache`). -/
def cacheGet (s : ConcatState) (k : List Nat × ℚ) : Option Nat :=
  alookup k s.cache

/-- Cache store. -/
def cachePut (s : ConcatState) (k : List Nat × ℚ) (a : Nat) : ConcatState :=
  { s with cache := (k, a) :: s.cache }

/-- Dereference every source layer's `output` descriptor. -/
def getOutputs (s : ConcatState) : List Layer → Except String (List DataVal)
  | [] => .ok []
  | l :: t =>
    match heapGet s l.outputAddr with
    | none => .error "dangling layer output"
    | some v =>
      match getOutputs s t with
      | .error e => .error e
      | .ok r => .ok (v :: r)

/-- `concat_sources(src_layers)`: with exactly one source, the source's own
`output` object is returned (no copy, no cache access); otherwise the cache
is consulted under key `(tuple(src_layers), 0.0)` — a hit returns a fresh
`.copy()` of the cached object, a miss builds the concatenated descriptor,
stores a `.copy()` of it in the cache and returns the built object. -/
def concat_sources (srcLayers : List Layer) (s : ConcatState) :
    Except String (Nat × ConcatState) :=
  match srcLayers with
  | [] => .error "need source layers"
  | [l] => .ok (l.outputAddr, s)
  | _ =>
    let key : List Nat × ℚ := (srcLayers.map Layer.id, 0)
    match cacheGet s key with
    | some a =>
      match heapGet s a with
      | none => .error "dangling cache entry"
      | some v => .ok (allocD s v)
    | none =>
      match getOutputs s srcLayers with
      | .error e => .error e
      | .ok outs =>
        match concat_sources_core outs with
        | .error e => .error e
        | .ok data =>
          let (r, s1) := allocD s data
          let (c, s2) := allocD s1 data
          .ok (r, cachePut s2 key c)

/-- `concat_sources_with_opt_dropout(src_layers, dropout)`: concatenates,
forces the rate to `0` when `train_flag is False`, returns the concatenated
object unchanged for rate `0`; otherwise consults the cache under
`(tuple(src_layers), float(dropout))` — a hit returns a fresh `.copy()`, a
miss draws a random seed, replaces the object's placeholder in place by the
`cond_on_train` dropout expression, stores a `.copy()` and returns the
(mutated) object. -/
def concat_sources_with_opt_dropout (srcLayers : List Layer) (dropout : ℚ)
    (s : ConcatState) : Except String (Nat × ConcatState) :=
  match srcLayers with
  | [] => .error "need source layers"
  | _ =>
    match concat_sources srcLayers s with
    | .error e => .error e
    | .ok (addr, s1) =>
      let dropout := if s1.trainFlag = TrainFlag.isFalse then 0 else dropout
      if dropout = 0 then .ok (addr, s1)
      else
        let key : List Nat × ℚ := (srcLayers.map Layer.id, dropout)
        match cacheGet s1 key with
        | some a =>
          match heapGet s1 a with
          | none => .error "dangling cache entry"
          | some v => .ok (allocD s1 v)
        | none =>
          if 0 < dropout ∧ dropout < 1 then
            match heapGet s1 addr with
            | none => .error "dangling data"
            | some v =>
              match v.placeholder with
              | none => .error "AttributeError: placeholder is None"
              | some p =>
                let seed := s1.rngCalls
                let v' := { v with placeholder := some (PH.condOnTrain (1 - dropout) seed p) }
                let s2 := { heapSet s1 addr v' with rngCalls := s1.rngCalls + 1 }
                let (c, s3) := allocD s2 v'
                .ok (addr, cachePut s3 key c)
          else .error "assert 0.0 < dropout < 1.0"

/-- A value stored in a `size_placeholder` dict: either a plain Python int
(e.g. the literal `1` written by `ReduceLayer` under `keep_dims=True`) or a
length tensor holding one valid length per batch example. -/
inductive SizeEntry where
  | intLit (n : Int)
  | lenVec (v : Nat → Int)

/-- Apply an elementwise tf op (e.g. `tf.maximum(0, x - k)`) to a size
entry; on a length tensor it acts per batch example. -/
def SizeEntry.map1 (f : Int → Int) : SizeEntry → SizeEntry
  | .intLit n => .intLit (f n)
  | .lenVec v => .lenVec (fun b => f (v b))

/-! ### ReduceLayer -/

/-- Python `list.insert`-free stable insertion sort step (for `sorted`). -/
def insertAsc (x : Nat) : List Nat → List Nat
  | [] => [x]
  | y :: t => if x ≤ y then x :: y :: t else y :: insertAsc x t

/-- Python `sorted` (ascending). -/
def sortAsc (l : List Nat) : List Nat := l.foldr insertAsc []

/-- Python `reversed(sorted(axis))`. -/
def sortedDesc (l : List Nat) : List Nat := (sortAsc l).reverse

/-- One step of the `keep_dims=False` loop of `ReduceLayer.__init__`:
`if i in y_dyn_sizes: del y_dyn_sizes[i]` followed by the renumbering dict
comprehension that maps every key `j` to `j if j < i else j - 1`.  On the
functional dict this is exactly: keys below `i` are kept, key `i`
disappears, keys above `i` slide down by one. -/
def delRenumber (m : Nat → Option SizeEntry) (i : Nat) : Nat → Option SizeEntry :=
  fun k => if k < i then m k else m (k + 1)

/-- One step of the `keep_dims=True` loop of `ReduceLayer.__init__`:
`if i in y_dyn_sizes: y_dyn_sizes[i] = 1` (the plain Python int `1`). -/
def setOneIfPresent (m : Nat → Option SizeEntry) (i : Nat) : Nat → Option SizeEntry :=
  match m i with
  | some _ => fun k => if k = i then some (.intLit 1) else m k
  | none => m

/-- The `size_placeholder` update of `ReduceLayer.__init__`: starting from a
copy of the input's dict, with `keep_dims` every reduced axis that has an
entry is set to `1`; without it the axes are processed in
`reversed(sorted(axis))` order, each deleting its entry and renumbering all
higher keys down by one. -/
def reduce_size_update (axis : List Nat) (keepDims : Bool)
    (m : Nat → Option SizeEntry) : Nat → Option SizeEntry :=
  if keepDims then axis.foldl setOneIfPresent m
  else (sortedDesc axis).foldl delRenumber m

/-- The `axis` argument of `ReduceLayer`: an int, a list of ints, or one of
the symbolic axis names. -/
inductive AxisArg where
  | int (i : Int)
  | intList (l : List Int)
  | str (s : String)

/-- The slice of a `Data` object that `ReduceLayer._get_axis` inspects:
`batch_shape` (with the batch dim), and the batch/time axis indices. -/
structure ReduceData where
  batch_shape : List (Option Nat)
  batch_dim_axis : Nat
  time_dim_axis : Nat

/-- `Data.batch_ndim`: number of axes including the batch dim. -/
def ReduceData.batch_ndim (d : ReduceData) : Nat := d.batch_shape.length

/-- Modelled from the spec: `Data.get_dynamic_batch_axes` — the axes whose
per-example extent varies (the batch axis and every axis without a fixed
static size), counted with the batch dim. -/
def ReduceData.get_dynamic_batch_axes (d : ReduceData) : List Nat :=
  (List.range d.batch_ndim).filter
    (fun i => i = d.batch_dim_axis ∨ d.batch_shape.getD i none = none)

/-- Modelled from the spec: `Data.get_non_dynamic_axes` — the axes with a
fixed static size, counted with the batch dim. -/
def ReduceData.get_non_dynamic_axes (d : ReduceData) : List Nat :=
  (List.range d.batch_ndim).filter
    (fun i => ¬ (i = d.batch_dim_axis ∨ d.batch_shape.getD i none = none))

/-- Python `list.remove(x)`: drops the first occurrence, `ValueError` when
absent. -/
def pyRemove (x : Nat) : List Nat → Except String (List Nat)
  | [] => .error "ValueError: list.remove(x): x not in list"
  | y :: t =>
    if y = x then .ok t
    else
      match pyRemove x t with
      | .error e => .error e
      | .ok r => .ok (y :: r)

/-- `i % n` as Python computes it for ints (result in `[0, n)` for `n > 0`,
`ZeroDivisionError` for `n = 0`). -/
def pyMod (i : Int) (n : Nat) : Except String Nat :=
  if n = 0 then .error "ZeroDivisionError: integer division or modulo by zero"
  else .ok (i % (n : Int)).toNat

/-- The `[i % input_data.batch_ndim for i in axis]` comprehension. -/
def mapPyMod (n : Nat) : List Int → Except String (List Nat)
  | [] => .ok []
  | i :: t =>
    match pyMod i n with
    | .error e => .error e
    | .ok v =>
      match mapPyMod n t with
      | .error e => .error e
      | .ok r => .ok (v :: r)

/-- `ReduceLayer._get_axis(axis, input_data)`: resolves a symbolic name to
axis indices, wraps a single int into a list, requires a non-empty list,
and reduces every index modulo `batch_ndim`. -/
def ReduceLayer.get_axis (axis : AxisArg) (d : ReduceData) : Except String (List Nat) :=
  let resolved : Except String (List Int) :=
    match axis with
    | .int i => .ok [i]
    | .intList l => .ok l
    | .str s =>
      let s := pyLower s
      if s = "b" ∨ s = "batch" then .ok [(0 : Int)]
      else if s = "spatial" then
        match pyRemove d.batch_dim_axis d.get_dynamic_batch_axes with
        | .error e => .error e
        | .ok r => .ok (r.map Int.ofNat)
      else if s = "spatial_except_time" then
        match pyRemove d.batch_dim_axis d.get_dynamic_batch_axes with
        | .error e => .error e
        | .ok r =>
          match pyRemove d.time_dim_axis r with
          | .error e => .error e
          | .ok r2 => .ok (r2.map Int.ofNat)
      else if s = "f" ∨ s = "feature" then .ok (d.get_non_dynamic_axes.map Int.ofNat)
      else .error "invalid axis mode"
  match resolved with
  | .error e => .error e
  | .ok l =>
    if l = [] then .error "no axis to reduce"
    else mapPyMod d.batch_ndim l

/-! ### SliceLayer -/

/-- The slice of a `Data` object that `SliceLayer` inspects: the length of
`batch_shape`, the batch/time axis indices (with batch dim), the
`size_placeholder` dict (keys without batch dim), and the physical extent
`tf.shape(placeholder)[time_dim_axis]` of the padded time axis. -/
structure SliceData where
  batch_shape_len : Nat
  batch_dim_axis : Option Nat
  time_dim_axis : Option Nat
  size_placeholder : Nat → Option SizeEntry
  time_shape_extent : Int

/-- Modelled from the spec: `Data.get_axes(exclude_time=True,
exclude_batch=True)` — all axis indices except the time and batch axes. -/
def SliceData.axes_wo_time_batch (d : SliceData) : List Nat :=
  (List.range d.batch_shape_len).filter
    (fun i => ¬ (some i = d.time_dim_axis ∨ some i = d.batch_dim_axis))

/-- `SliceLayer._get_axis(axis, axis_kind, input_data)`: either a literal
axis index (then `axis_kind` must be absent and the index in range) or a
role letter `"T"`/`"B"`/`"F"`. -/
def SliceLayer.get_axis (axis : Option Nat) (axis_kind : Option String)
    (d : SliceData) : Except String Nat :=
  match axis with
  | some a =>
    if axis_kind ≠ none then .error "assert not axis_kind"
    else if a < d.batch_shape_len then .ok a
    else .error "assert 0 <= axis < len(batch_shape)"
  | none =>
    match axis_kind with
    | none => .error "assert axis_kind"
    | some k =>
      let k := pyUpper k
      if k = "T" then
        match d.time_dim_axis with
        | some t => .ok t
        | none => .error "assert time_dim_axis is not None"
      else if k = "B" then
        match d.batch_dim_axis with
        | some b => .ok b
        | none => .error "assert batch_dim_axis is not None"
      else if k = "F" then
        match d.axes_wo_time_batch with
        | [a] => .ok a
        | _ => .error "assert len(axes) == 1"
      else .error "invalid axis_kind"

/-- The `size_placeholder` update of `SliceLayer.__init__`.  When the sliced
axis is the time axis, the entry at `time_dim_axis_excluding_batch` is
rewritten: a truthy `slice_start` must be positive and clamps each length to
`max(0, length - slice_start)`; a truthy `slice_end` must be positive and
clamps to `min(time_extent - slice_end, length)`; a truthy `slice_step`
floor-divides the length.  Otherwise the sliced axis must have no dynamic
length entry. -/
def slice_size_update (d : SliceData) (axis : Nat)
    (slice_start slice_end slice_step : Option Int) :
    Except String (Nat → Option SizeEntry) :=
  if some axis = d.time_dim_axis then
    match axisExcludingBatch d.batch_dim_axis axis with
    | none => .error "time axis is the batch axis"
    | some t =>
      let m := d.size_placeholder
      let step1 : Except String (Nat → Option SizeEntry) :=
        if intOptTruthy slice_start then
          match slice_start with
          | some st =>
            if st ≤ 0 then .error "assert slice_start > 0"
            else
              match m t with
              | none => .error "KeyError"
              | some e =>
                .ok (fun k => if k = t then
                      some (e.map1 (fun x => max 0 (x - st))) else m k)
          | none => .error "unreachable"
        else .ok m
      match step1 with
      | .error e => .error e
      | .ok m1 =>
        let step2 : Except String (Nat → Option SizeEntry) :=
          if intOptTruthy slice_end then
            match slice_end with
            | some en =>
              if en ≤ 0 then .error "assert slice_end > 0"
              else
                match m1 t with
                | none => .error "KeyError"
                | some e =>
                  .ok (fun k => if k = t then
                        some (e.map1 (fun x => min (d.time_shape_extent - en) x)) else m1 k)
            | none => .error "unreachable"
          else .ok m1
        match step2 with
        | .error e => .error e
        | .ok m2 =>
          if intOptTruthy slice_step then
            match slice_step with
            | some sp =>
              match m2 t with
              | none => .error "KeyError"
              | some e =>
                .ok (fun k => if k = t then
                      some (e.map1 (fun x => Int.fdiv x sp)) else m2 k)
            | none => .error "unreachable"
          else .ok m2
  else
    match axisExcludingBatch d.batch_dim_axis axis with
    | none => .ok d.size_placeholder
    | some awb =>
      match d.size_placeholder awb with
      | some _ => .error "assert axis_wo_batch not in size_placeholder"
      | none => .ok d.size_placeholder

/-! ### Loss classes -/

/-- The three concrete loss kinds of the module. -/
inductive LossKind where
  | ce
  | generic_ce
  | ctc
deriving DecidableEq

/-- `CtcLoss.get_auto_output_layer_dim(target_dim)`: one more category for
the blank label. -/
def CtcLoss.get_auto_output_layer_dim (target_dim : Nat) : Nat := target_dim + 1

/-- `Loss.get_auto_output_layer_dim` dispatched over the concrete classes:
the base implementation returns `target_dim`; only `CtcLoss` overrides. -/
def Loss.get_auto_output_layer_dim : LossKind → Nat → Nat
  | .ctc, d => CtcLoss.get_auto_output_layer_dim d
  | .ce, d => d
  | .generic_ce, d => d

/-- The tensor operations `CtcLoss.get_value` / `get_error` can emit, in
emission order. -/
inductive TfOp where
  | nameScope (s : String)
  | logOp
  | minimumOp
  | sparseLabelsOp
  | ctcLossOp
  | transposeOp
  | ctcGreedyDecoderOp
  | editDistanceOp
  | reduceSumOp
deriving DecidableEq

/-- `OutputWithActivation` as the CTC loss sees it: `get_logits()` either
yields a logits tensor or `None` (its internals live outside this
repository slice). -/
structure OWA where
  logits : Option PH

/-- The fields of an initialized `CtcLoss` that `get_value` / `get_error`
read: the target's sparsity and dim, the optional fused activation, the
output placeholder, the static shape of the logits tensor (with batch dim),
the time-major flag, and the `auto_clip_target_len` option. -/
structure CtcCtx where
  target_sparse : Bool
  target_dim : Nat
  owa : Option OWA
  output_ph : PH
  logits_shape : List (Option Nat)
  output_is_time_major : Bool
  auto_clip_target_len : Bool

/-- The logits selection of `CtcLoss.get_value`/`get_error`: use the fused
activation's logits when available, otherwise `tf.log(output.placeholder)`
(which emits a log op). -/
def ctcSelectLogits (c : CtcCtx) : List TfOp × PH :=
  match c.owa with
  | some a =>
    match a.logits with
    | some l => ([], l)
    | none => ([TfOp.logOp], PH.logPH c.output_ph)
  | none => ([TfOp.logOp], PH.logPH c.output_ph)

/-- `CtcLoss._get_target_sparse_labels()`: optionally clips the target
lengths (`tf.minimum`), then builds the sparse label encoding. -/
def ctcTargetSparseLabels (c : CtcCtx) : List TfOp :=
  (if c.auto_clip_target_len then [TfOp.minimumOp] else []) ++ [TfOp.sparseLabelsOp]

/-- `CtcLoss.get_value()`: raises on a dense target before anything is
built; otherwise opens the name scope, selects logits, asserts the logits
rank is 3 and its last dim is `target_dim + 1`, builds the sparse labels,
the `tf.nn.ctc_loss` op and the sum reduction.  Returns the ops emitted in
order together with the result. -/
def CtcLoss.get_value (c : CtcCtx) : List TfOp × Except String Unit :=
  if c.target_sparse = false then
    ([], .error "CTC target expected to be sparse (symbols)")
  else
    let ops := [TfOp.nameScope "loss_ctc"]
    let (lops, _) := ctcSelectLogits c
    let ops := ops ++ lops
    if c.logits_shape.length ≠ 3 then
      (ops, .error "assert logits ndims == 3")
    else if c.logits_shape.getD 2 none ≠ some (c.target_dim + 1) then
      (ops, .error "assert logits dims 2 == target dim + 1")
    else
      (ops ++ ctcTargetSparseLabels c ++ [TfOp.ctcLossOp, TfOp.reduceSumOp], .ok ())

/-- `CtcLoss.get_error()`: raises on a dense target before anything is
built; otherwise opens the name scope, selects logits, transposes to
time-major when needed, builds the greedy decoder, the sparse labels, the
edit distance and the sum reduction. -/
def CtcLoss.get_error (c : CtcCtx) : List TfOp × Except String Unit :=
  if c.target_sparse = false then
    ([], .error "CTC target expected to be sparse (symbols)")
  else
    let ops := [TfOp.nameScope "loss_ctc_error"]
    let (lops, _) := ctcSelectLogits c
    let ops := ops ++ lops
    let ops := ops ++ (if c.output_is_time_major then [] else [TfOp.transposeOp])
    (ops ++ [TfOp.ctcGreedyDecoderOp] ++ ctcTargetSparseLabels c
         ++ [TfOp.editDistanceOp, TfOp.reduceSumOp], .ok ())

/-! ### RecLayer cell construction -/

/-- The observable events of the cell-construction section of
`RecLayer.__init__` (lines: the `direction` asserts, the bidirectional
split, and the `rnn_cell_class(n_hidden)` instantiations). -/
inductive RecEvent where
  | assertFail (msg : String)
  | cellCreated (width : Nat)
deriving DecidableEq

/-- Whether an event is a cell instantiation. -/
def RecEvent.isCell : RecEvent → Bool
  | .cellCreated _ => true
  | _ => false

/-- The event trace of the cell-construction section of `RecLayer.__init__`:
a given `direction` forbids `bidirectional` and must be `±1`; the hidden
width starts as the declared output dim `n_out`; with `bidirectional` it
must be even and is halved before `cell_fw` is instantiated, and a second
cell `cell_bw` of the same width follows; otherwise one cell of width
`n_out` is instantiated.  A failed assert ends the trace (nothing later is
built). -/
def RecLayer.initCellsTrace (bidirectional : Bool) (direction : Option Int)
    (n_out : Nat) : List RecEvent :=
  let afterDirection : List RecEvent :=
    if bidirectional then
      if n_out % 2 = 0 then
        [RecEvent.cellCreated (n_out / 2), RecEvent.cellCreated (n_out / 2)]
      else [RecEvent.assertFail "assert n_hidden % 2 == 0"]
    else [RecEvent.cellCreated n_out]
  match direction with
  | none => afterDirection
  | some dv =>
    if bidirectional then [RecEvent.assertFail "assert not bidirectional"]
    else if dv ≠ -1 ∧ dv ≠ 1 then [RecEvent.assertFail "assert direction in [-1, 1]"]
    else afterDirection

/-! ### Regularization constraints -/

/-- Symbolic tf scalar expressions for the constraint penalties. -/
inductive TExpr where
  | litE (q : ℚ)
  | l2normE
  | ssEnergyE
  | addE (a b : TExpr)
  | mulE (a b : TExpr)
deriving DecidableEq

/-- Numeric evaluation of a constraint expression given the values of the
two penalty terms. -/
def TExpr.eval (l2v ssv : ℚ) : TExpr → ℚ
  | .litE q => q
  | .l2normE => l2v
  | .ssEnergyE => ssv
  | .addE a b => a.eval l2v ssv + b.eval l2v ssv
  | .mulE a b => a.eval l2v ssv * b.eval l2v ssv

/-- The accumulator `c` of `get_constraints_value`: it starts as the Python
int literal `0` and becomes a tf tensor as soon as any penalty is added
(`0 + tensor` builds an add node).  The guard `if c is 0` is an identity
comparison with the interned literal, so it distinguishes exactly these two
constructors. -/
inductive PyAcc where
  | intZero
  | tens (e : TExpr)
deriving DecidableEq

/-- `c += <tensor expr>` on the accumulator. -/
def pyAccAdd (c : PyAcc) (e : TExpr) : PyAcc :=
  match c with
  | .intZero => .tens (TExpr.addE (TExpr.litE 0) e)
  | .tens a => .tens (TExpr.addE a e)

/-- `LayerBase.get_constraints_value()`: accumulates `L2 * l2_norm` when
`self.L2` is truthy and `spatial_smoothing * energy` when
`self.spatial_smoothing` is truthy, then returns `None` iff the accumulator
still `is` the int literal `0`. -/
def LayerBase.get_constraints_value (L2 : Option ℚ) (spatial_smoothing : ℚ) :
    Option PyAcc :=
  let c := PyAcc.intZero
  let c := if ratOptTruthy L2 then
      pyAccAdd c (TExpr.mulE (TExpr.litE (L2.getD 0)) TExpr.l2normE)
    else c
  let c := if spatial_smoothing ≠ 0 then
      pyAccAdd c (TExpr.mulE (TExpr.litE spatial_smoothing) TExpr.ssEnergyE)
    else c
  match c with
  | .intZero => none
  | _ => some c

/-- `SubnetworkLayer.get_constraints_value()`: returns `None` iff the
subnetwork's `total_constraints` accumulator `is` the int literal `0`. -/
def SubnetworkLayer.get_constraints_value (v : PyAcc) : Option PyAcc :=
  match v with
  | .intZero => none
  | _ => some v

/-! ### LayerBase: target defaulting, output-shape inference, output flag -/

/-- The pieces of the network a layer's construction reads: the default
target key, the external data keys with their feature dims, and the already
constructed layers with their output dims. -/
structure NetModel where
  default_target : String
  extern_data : List (String × Nat)
  layers : List (String × Nat)
deriving DecidableEq

/-- `LayerBase._static_get_target_value(target, network).dim` resolution:
`None`/`""`/`"none"` yield no value; otherwise the external data key wins
over a layer name; an unresolvable key raises. -/
def static_get_target_dim (target : Option String) (net : NetModel) :
    Except String (Option Nat) :=
  match target with
  | none => .ok none
  | some t =>
    if t = "" then .ok none
    else if t = "none" then .ok none
    else
      match alookup t net.extern_data with
      | some d => .ok (some d)
      | none =>
        match alookup t net.layers with
        | some d => .ok (some d)
        | none => .error "target unknown"

/-- The target defaulting `if loss and not target: target =
network.extern_data.default_target`, performed identically by
`LayerBase.__init__` and by `LayerBase.get_out_data_from_opts`. -/
def LayerBase.effective_target (loss : Option LossKind) (target : Option String)
    (net : NetModel) : Option String :=
  if loss.isSome ∧ strOptTruthy target = false then some net.default_target else target

/-- The `out_type` dict of `get_out_data_from_opts` (fields absent from the
dict are `none`). -/
structure OutTypeRec where
  name : Option String := none
  dim : Option Nat := none
  dtype : Option String := none
  shape : Option (List (Option Nat)) := none
  batch_dim_axis : Option (Option Nat) := none
  time_dim_axis : Option (Option Nat) := none
  sparse : Option Bool := none

/-- Modelled from the spec: construction of a `TensorDescriptor` from an
options record (`Data(**out_type)`, outside this repository slice).  A
missing `shape` defaults to one dynamic axis plus the feature dim; a
missing `dim` is taken from the shape's last static entry; with neither,
shape inference fails fatally rather than defaulting silently.  Remaining
defaults: dtype `"float32"`, batch axis `0`, time axis `1`, dense. -/
def dataFromOutType (o : OutTypeRec) : Except String DataVal :=
  let base : List (Option Nat) → Nat → DataVal := fun sh d =>
    { name := o.name.getD "data"
      shape := sh
      dim := d
      sparse := o.sparse.getD false
      dtype := o.dtype.getD "float32"
      batch_dim_axis := o.batch_dim_axis.getD (some 0)
      time_dim_axis := o.time_dim_axis.getD (some 1)
      placeholder := none
      size_placeholder := [] }
  match o.shape, o.dim with
  | some sh, some d => .ok (base sh d)
  | some sh, none =>
    match sh.getLast? with
    | some (some d) => .ok (base sh d)
    | _ => .error "MissingShapeError: dim not inferable from shape"
  | none, some d => .ok (base [none, some d] d)
  | none, none => .error "MissingShapeError: no shape and no dim"

/-- Modelled from the spec: `Data.matches_dim_pattern` — true iff the
batch/time axis indices and the static shape up to the feature axis are
identical (decides whether the source's dynamic lengths can be reused). -/
def DataVal.matches_dim_pattern (a b : DataVal) : Bool :=
  a.batch_dim_axis = b.batch_dim_axis ∧ a.time_dim_axis = b.time_dim_axis ∧
    a.shape.dropLast = b.shape.dropLast

/-- `LayerBase.get_out_data_from_opts`: defaults the target from the loss,
infers `n_out` from the target's dim adjusted through the loss's
`get_auto_output_layer_dim` when neither `out_type` nor `n_out` is given,
then fills the `out_type` record from `n_out` and the first source and
constructs the output descriptor, presetting its `size_placeholder` from
the first source when the axis pattern still matches.  `sources` holds the
source layers' output descriptors. -/
def LayerBase.get_out_data_from_opts (net : NetModel) (name : String)
    (out_type : Option OutTypeRec) (n_out : Option Nat) (target : Option String)
    (sources : List DataVal) (loss : Option LossKind) : Except String DataVal :=
  let target := LayerBase.effective_target loss target net
  let n_outE : Except String (Option Nat) :=
    if out_type.isNone ∧ n_out.isNone ∧ strOptTruthy target then
      match static_get_target_dim target net with
      | .error e => .error e
      | .ok none => .error "AttributeError: NoneType has no attribute dim"
      | .ok (some tdim) =>
        .ok (some (match loss with
                   | some l => Loss.get_auto_output_layer_dim l tdim
                   | none => tdim))
    else .ok n_out
  match n_outE with
  | .error e => .error e
  | .ok n_out =>
    let outTypeE : Except String OutTypeRec :=
      match out_type with
      | some o => .ok o
      | none =>
        match n_out with
        | some m => if m = 0 then .error "assert n_out" else .ok { dim := some m }
        | none => .error "assert n_out"
    match outTypeE with
    | .error e => .error e
    | .ok o =>
      let o := { o with name := some (o.name.getD (name ++ "_output")) }
      let o := match sources with
        | [] => o
        | s0 :: _ => { o with dtype := some (o.dtype.getD s0.dtype) }
      let oE : Except String OutTypeRec :=
        match n_out with
        | none => .ok o
        | some m =>
          let o := { o with dim := some (o.dim.getD m) }
          if o.dim = some m then .ok o else .error "assert out_type dim == n_out"
      match oE with
      | .error e => .error e
      | .ok o =>
        let o := match sources with
          | [] => o
          | s0 :: _ =>
            { o with shape := some (o.shape.getD
                (s0.shape.dropLast ++ [some (o.dim.getD s0.dim)])) }
        let o := match sources with
          | [] => o
          | s0 :: _ =>
            if o.batch_dim_axis.isNone then
              { o with batch_dim_axis := some s0.batch_dim_axis
                       time_dim_axis := some (o.time_dim_axis.getD s0.time_dim_axis) }
            else o
        match dataFromOutType o with
        | .error e => .error e
        | .ok output =>
          match sources with
          | [] => .ok output
          | s0 :: _ =>
            if s0.matches_dim_pattern output then
              .ok { output with size_placeholder := s0.size_placeholder }
            else .ok output

/-- `LayerBase.is_output_layer()`: an explicitly supplied flag wins;
otherwise a truthy `target` or the exact name `"output"` makes the layer an
output layer. -/
def LayerBase.is_output_layer_val (explicitFlag : Option Bool)
    (target : Option String) (name : String) : Bool :=
  match explicitFlag with
  | some b => b
  | none =>
    if strOptTruthy target then true
    else if name = "output" then true
    else false

/-! ## Claims -/

/-- C10: `is_output_layer()` returns the explicitly supplied flag when one
was given; otherwise it returns true iff the layer has a (truthy) target
set or the layer's name is exactly `"output"`. -/
theorem claim_C10 :
    (∀ (b : Bool) (target : Option String) (name : String),
       LayerBase.is_output_layer_val (some b) target name = b) ∧
    (∀ (target : Option String) (name : String),
       LayerBase.is_output_layer_val none target name = true ↔
         (strOptTruthy target = true ∨ name = "output")) := by
  constructor
  · intro b t n; rfl
  · intro t n
    simp only [LayerBase.is_output_layer_val]
    by_cases h : strOptTruthy t = true <;> by_cases h2 : n = "output" <;> simp [h, h2]

/-- C10 witness: evaluated at explicit flag `false` with a target set, and
at no explicit flag with name `"output"`. -/
theorem claim_C10_witness :
    LayerBase.is_output_layer_val (some false) (some "classes") "output" = false ∧
    (LayerBase.is_output_layer_val none none "output" = true ↔
      (strOptTruthy none = true ∨ "output" = "output")) :=
  ⟨claim_C10.1 false (some "classes") "output", claim_C10.2 none "output"⟩

/-- C7: `get_constraints_value` returns `None` exactly when no
regularization is configured (`L2` falsy and `spatial_smoothing` zero);
otherwise it returns the weighted sum of the configured penalties.  The
absent case is decided by matching the accumulator against the int literal
`0` (the `c is 0` identity comparison), and the subnetwork variant applies
the same identity comparison to the subnetwork's total. -/
theorem claim_C7 :
    (∀ (L2 : Option ℚ) (ss : ℚ),
       LayerBase.get_constraints_value L2 ss = none ↔
         (ratOptTruthy L2 = false ∧ ss = 0)) ∧
    (∀ (L2 : Option ℚ) (ss : ℚ) (c : PyAcc),
       LayerBase.get_constraints_value L2 ss = some c →
       ∃ e, c = PyAcc.tens e ∧ ∀ l2v ssv : ℚ, e.eval l2v ssv =
         (if ratOptTruthy L2 then (L2.getD 0) * l2v else 0) +
         (if ss ≠ 0 then ss * ssv else 0)) ∧
    (∀ v : PyAcc, SubnetworkLayer.get_constraints_value v = none ↔ v = PyAcc.intZero) := by
  refine ⟨?_, ?_, ?_⟩
  · intro L2 ss
    by_cases hL : ratOptTruthy L2 = true <;> by_cases hS : ss = 0 <;>
      simp [LayerBase.get_constraints_value, hL, hS, pyAccAdd]
  · intro L2 ss c hc
    by_cases hL : ratOptTruthy L2 = true <;> by_cases hS : ss = 0
    · simp [LayerBase.get_constraints_value, hL, hS, pyAccAdd] at hc
      refine ⟨_, hc.symm, fun l2v ssv => ?_⟩
      simp [TExpr.eval, hL, hS]
    · simp [LayerBase.get_constraints_value, hL, hS, pyAccAdd] at hc
      refine ⟨_, hc.symm, fun l2v ssv => ?_⟩
      simp [TExpr.eval, hL, hS]
    · simp [LayerBase.get_constraints_value, hL, hS, pyAccAdd] at hc
    · simp [LayerBase.get_constraints_value, hL, hS, pyAccAdd] at hc
      refine ⟨_, hc.symm, fun l2v ssv => ?_⟩
      simp [TExpr.eval, hL, hS]
  · intro v
    cases v <;> simp [SubnetworkLayer.get_constraints_value]

/-- C7 witness: with `L2 = 2` configured and no spatial smoothing the
result is the single weighted penalty term; nothing configured gives
`None`. -/
theorem claim_C7_witness :
    (LayerBase.get_constraints_value (some 2) 0 = none ↔
      (ratOptTruthy (some 2) = false ∧ (0 : ℚ) = 0)) ∧
    (∃ e, PyAcc.tens (TExpr.addE (TExpr.litE 0)
            (TExpr.mulE (TExpr.litE 2) TExpr.l2normE)) = PyAcc.tens e ∧
       ∀ l2v ssv : ℚ, e.eval l2v ssv =
         (if ratOptTruthy (some 2) then ((some (2:ℚ)).getD 0) * l2v else 0) +
         (if (0:ℚ) ≠ 0 then 0 * ssv else 0)) :=
  ⟨claim_C7.1 (some 2) 0,
   claim_C7.2.1 (some 2) 0 _ (by decide)⟩

/-- C5: a bidirectional recurrent layer splits `n_out` into two cells of
hidden width `n_out / 2` each; an odd `n_out` with `bidirectional=True`
fails fatally before any cell object is instantiated (the trace holds no
cell-creation event, only a failed assert). -/
theorem claim_C5 :
    (∀ n_out : Nat, n_out % 2 = 0 →
       RecLayer.initCellsTrace true none n_out =
         [RecEvent.cellCreated (n_out / 2), RecEvent.cellCreated (n_out / 2)]) ∧
    (∀ (n_out : Nat) (direction : Option Int), n_out % 2 ≠ 0 →
       (∀ w, RecEvent.cellCreated w ∉ RecLayer.initCellsTrace true direction n_out) ∧
       (∃ msg, RecEvent.assertFail msg ∈ RecLayer.initCellsTrace true direction n_out)) := by
  constructor
  · intro n h
    simp [RecLayer.initCellsTrace, h]
  · intro n direction h
    cases direction with
    | none =>
      refine ⟨fun w => ?_, ⟨"assert n_hidden % 2 == 0", ?_⟩⟩ <;>
        simp [RecLayer.initCellsTrace, h]
    | some dv =>
      refine ⟨fun w => ?_, ⟨"assert not bidirectional", ?_⟩⟩ <;>
        simp [RecLayer.initCellsTrace]

/-- C5 witness: `n_out = 8` gives two cells of width 4; `n_out = 7` fails
with no cell instantiated. -/
theorem claim_C5_witness :
    RecLayer.initCellsTrace true none 8 =
      [RecEvent.cellCreated 4, RecEvent.cellCreated 4] ∧
    ((∀ w, RecEvent.cellCreated w ∉ RecLayer.initCellsTrace true none 7) ∧
     (∃ msg, RecEvent.assertFail msg ∈ RecLayer.initCellsTrace true none 7)) :=
  ⟨claim_C5.1 8 (by decide), claim_C5.2 7 none (by decide)⟩

/-- A concrete initialized CTC loss whose target is dense. -/
def ctcDenseCtx : CtcCtx :=
  { target_sparse := false
    target_dim := 5
    owa := none
    output_ph := PH.externPH 0
    logits_shape := [none, none, some 6]
    output_is_time_major := true
    auto_clip_target_len := false }

/-- C4: the CTC loss declares `get_auto_output_layer_dim(d) = d + 1`, and
with a dense (non-sparse) target both `get_value` and `get_error` raise
before any tensor operation of the loss is built (empty op trace). -/
theorem claim_C4 :
    (∀ d : Nat, CtcLoss.get_auto_output_layer_dim d = d + 1) ∧
    (∀ c : CtcCtx, c.target_sparse = false →
       (CtcLoss.get_value c).1 = [] ∧
       (CtcLoss.get_value c).2 = .error "CTC target expected to be sparse (symbols)" ∧
       (CtcLoss.get_error c).1 = [] ∧
       (CtcLoss.get_error c).2 = .error "CTC target expected to be sparse (symbols)") := by
  constructor
  · intro d; rfl
  · intro c h
    refine ⟨?_, ?_, ?_, ?_⟩ <;> simp [CtcLoss.get_value, CtcLoss.get_error, h]

/-- C4 witness: `get_auto_output_layer_dim 5 = 6`, and the concrete dense
setup raises from both entry points with nothing built. -/
theorem claim_C4_witness :
    CtcLoss.get_auto_output_layer_dim 5 = 6 ∧
    ((CtcLoss.get_value ctcDenseCtx).1 = [] ∧
     (CtcLoss.get_value ctcDenseCtx).2 = .error "CTC target expected to be sparse (symbols)" ∧
     (CtcLoss.get_error ctcDenseCtx).1 = [] ∧
     (CtcLoss.get_error ctcDenseCtx).2 = .error "CTC target expected to be sparse (symbols)") :=
  ⟨claim_C4.1 5, claim_C4.2 ctcDenseCtx rfl⟩

/-- C3: reducing over a single (named or numeric) axis with
`keep_dims=False` removes exactly that axis's entry from the dynamic-length
mapping and slides every higher key down by one (keys below are untouched);
with `keep_dims=True` the axis's entry is instead set to the literal `1`
and no key is renumbered.  Numeric axis `i < batch_ndim` resolves to `[i]`
and the named axis `"batch"` resolves to `[0]`. -/
theorem claim_C3 :
    (∀ (m : Nat → Option SizeEntry) (a : Nat),
       reduce_size_update [a] false m = fun k => if k < a then m k else m (k + 1)) ∧
    (∀ (m : Nat → Option SizeEntry) (a : Nat) (e : SizeEntry), m a = some e →
       reduce_size_update [a] true m =
         fun k => if k = a then some (SizeEntry.intLit 1) else m k) ∧
    (∀ (d : ReduceData) (i : Nat), i < d.batch_ndim →
       ReduceLayer.get_axis (AxisArg.int (i : Int)) d = .ok [i]) ∧
    (∀ d : ReduceData, 0 < d.batch_ndim →
       ReduceLayer.get_axis (AxisArg.str "batch") d = .ok [0]) := by
  refine ⟨?_, ?_, ?_, ?_⟩
  · intro m a
    rfl
  · intro m a e h
    simp [reduce_size_update, setOneIfPresent, h]
  · intro d i h
    have hn : d.batch_ndim ≠ 0 := by omega
    have hmod : ((i : Int) % (d.batch_ndim : Int)).toNat = i := by
      rw [Int.emod_eq_of_lt (by omega) (by omega)]
      omega
    simp [ReduceLayer.get_axis, mapPyMod, pyMod, hn, hmod]
  · intro d h
    have hlow : pyLower "batch" = "batch" := by decide
    have hn : d.batch_ndim ≠ 0 := by omega
    have hmod : ((0 : Int) % (d.batch_ndim : Int)).toNat = 0 := by
      rw [Int.emod_eq_of_lt (by omega) (by omega)]
      omega
    simp [ReduceLayer.get_axis, hlow, mapPyMod, pyMod, hn, hmod]

/-- C3 witness: over the mapping with entries at keys 0 and 2, reducing
axis 1 without `keep_dims` renumbers key 2 to 1; with `keep_dims` the entry
at key 0 becomes `1`; numeric axis 1 of a rank-3 input resolves to `[1]`,
and the named axis `"batch"` to `[0]`. -/
theorem claim_C3_witness :
    (reduce_size_update [1] false
        (fun k => if k = 0 then some (SizeEntry.intLit 7)
                  else if k = 2 then some (SizeEntry.intLit 9) else none) =
      fun k => if k < 1 then
          (if k = 0 then some (SizeEntry.intLit 7)
           else if k = 2 then some (SizeEntry.intLit 9) else none)
        else
          (if k + 1 = 0 then some (SizeEntry.intLit 7)
           else if k + 1 = 2 then some (SizeEntry.intLit 9) else none)) ∧
    (reduce_size_update [0] true
        (fun k => if k = 0 then some (SizeEntry.intLit 7)
                  else if k = 2 then some (SizeEntry.intLit 9) else none) =
      fun k => if k = 0 then some (SizeEntry.intLit 1)
               else if k = 0 then some (SizeEntry.intLit 7)
               else if k = 2 then some (SizeEntry.intLit 9) else none) ∧
    ReduceLayer.get_axis (AxisArg.int ((1 : Nat) : Int))
      { batch_shape := [none, none, some 4], batch_dim_axis := 0, time_dim_axis := 1 } =
      .ok [1] ∧
    ReduceLayer.get_axis (AxisArg.str "batch")
      { batch_shape := [none, none, some 4], batch_dim_axis := 0, time_dim_axis := 1 } =
      .ok [0] :=
  ⟨claim_C3.1 _ 1,
   claim_C3.2.1 _ 0 (SizeEntry.intLit 7) rfl,
   claim_C3.2.2.1 _ 1 (by decide),
   claim_C3.2.2.2 _ (by decide)⟩

/-- C6: slicing the input's dynamic (time) axis with `slice_start = k > 0`
rewrites the entry at `time_dim_axis_excluding_batch` so each example's
valid length becomes `max(0, length - k)` (never negative); a `slice_step`
additionally floor-divides the clamped length by the step.  On a length
tensor the rewrite acts per batch example. -/
theorem claim_C6 :
    ∀ (d : SliceData) (t t' : Nat) (v : SizeEntry) (k : Int),
      d.time_dim_axis = some t →
      axisExcludingBatch d.batch_dim_axis t = some t' →
      d.size_placeholder t' = some v →
      0 < k →
      (slice_size_update d t (some k) none none =
         .ok (fun j => if j = t' then some (v.map1 (fun x => max 0 (x - k)))
                       else d.size_placeholder j)) ∧
      (∀ s : Int, s ≠ 0 →
         slice_size_update d t (some k) none (some s) =
           .ok (fun j => if j = t' then
                 some ((v.map1 (fun x => max 0 (x - k))).map1 (fun x => Int.fdiv x s))
                 else d.size_placeholder j)) ∧
      (∀ w : Nat → Int,
         (SizeEntry.lenVec w).map1 (fun x => max 0 (x - k)) =
           SizeEntry.lenVec (fun b => max 0 (w b - k))) := by
  intro d t t' v k h1 h2 h3 hk
  have hne : ¬ k ≤ 0 := by omega
  have hk0 : k ≠ 0 := by omega
  refine ⟨?_, ?_, fun w => rfl⟩
  · simp [slice_size_update, h1, h2, h3, intOptTruthy, hk0, hne]
  · intro s hs
    simp [slice_size_update, h1, h2, h3, intOptTruthy, hk0, hne, hs]
    funext j
    by_cases hj : j = t' <;> simp [hj]

/-- A concrete sliced input: batch-major, time axis 1, one example-length
entry of value 5 at key 0, padded time extent 9. -/
def sliceDemoData : SliceData :=
  { batch_shape_len := 3
    batch_dim_axis := some 0
    time_dim_axis := some 1
    size_placeholder := fun j => if j = 0 then some (SizeEntry.intLit 5) else none
    time_shape_extent := 9 }

/-- C6 witness: slicing the time axis from `start = 7` turns the length 5
into `max 0 (5 - 7) = 0` (not negative), and a step of 2 floor-divides the
clamped length. -/
theorem claim_C6_witness :
    (slice_size_update sliceDemoData 1 (some 7) none none =
       .ok (fun j => if j = 0 then
             some ((SizeEntry.intLit 5).map1 (fun x => max 0 (x - 7)))
             else sliceDemoData.size_placeholder j)) ∧
    (slice_size_update sliceDemoData 1 (some 7) none (some 2) =
       .ok (fun j => if j = 0 then
             some (((SizeEntry.intLit 5).map1 (fun x => max 0 (x - 7))).map1
               (fun x => Int.fdiv x 2))
             else sliceDemoData.size_placeholder j)) :=
  ⟨(claim_C6 sliceDemoData 1 0 (SizeEntry.intLit 5) 7 rfl (by decide) rfl (by decide)).1,
   (claim_C6 sliceDemoData 1 0 (SizeEntry.intLit 5) 7 rfl (by decide) rfl
      (by decide)).2.1 2 (by decide)⟩

/-- How one successful `concat_sources` call relates the output state to the
input state: either the single-source identity path (state untouched, the
source's own output address returned), or (≥ 2 sources) a fresh address is
returned and the cache either was hit (left untouched, one fresh copy
allocated) or gained exactly one entry holding a second fresh copy. -/
theorem concat_sources_state_cases {srcs : List Layer} {s : ConcatState}
    {r : Nat} {s₂ : ConcatState}
    (h : concat_sources srcs s = .ok (r, s₂)) :
    (∃ l, srcs = [l] ∧ r = l.outputAddr ∧ s₂ = s) ∨
    (2 ≤ srcs.length ∧ r = s.next ∧ s₂.trainFlag = s.trainFlag ∧
      s₂.rngCalls = s.rngCalls ∧
      ((s₂.cache = s.cache ∧ s₂.next = s.next + 1) ∨
       (s₂.cache = ((srcs.map Layer.id, (0:ℚ)), s.next + 1) :: s.cache ∧
        s₂.next = s.next + 2))) := by
  cases srcs with
  | nil => simp [concat_sources] at h
  | cons l0 t =>
    cases t with
    | nil =>
      left
      refine ⟨l0, rfl, ?_, ?_⟩ <;>
        simp only [concat_sources] at h <;> cases h <;> rfl
    | cons l1 t2 =>
      right
      simp only [concat_sources] at h
      rcases hc : cacheGet s (List.map Layer.id (l0 :: l1 :: t2), (0:ℚ))
        with _ | a
      · rw [hc] at h
        dsimp only at h
        rcases ho : getOutputs s (l0 :: l1 :: t2) with e | outs
        · rw [ho] at h; cases h
        · rw [ho] at h
          dsimp only at h
          rcases hcore : concat_sources_core outs with e | data
          · rw [hcore] at h; cases h
          · rw [hcore] at h
            simp only [allocD, cachePut] at h
            cases h
            refine ⟨by simp, rfl, rfl, rfl, Or.inr ⟨rfl, rfl⟩⟩
      · rw [hc] at h
        dsimp only at h
        rcases hg : heapGet s a with _ | v
        · rw [hg] at h; cases h
        · rw [hg] at h
          simp only [allocD] at h
          cases h
          refine ⟨by simp, rfl, rfl, rfl, Or.inl ⟨rfl, rfl⟩⟩

/-- C2: when the network's train flag is statically `False`,
`concat_sources_with_opt_dropout` returns exactly the result of
`concat_sources` for any requested rate — same descriptor object, same
state, hence an unmodified placeholder — and no random seed is drawn (the
random-call counter of the resulting state is unchanged, so no dropout mask
is allocated). -/
theorem claim_C2 :
    ∀ (srcs : List Layer) (dropout : ℚ) (s : ConcatState),
      s.trainFlag = TrainFlag.isFalse →
      concat_sources_with_opt_dropout srcs dropout s = concat_sources srcs s ∧
      (∀ r s', concat_sources srcs s = .ok (r, s') → s'.rngCalls = s.rngCalls) := by
  intro srcs dropout s hf
  constructor
  · cases srcs with
    | nil => rfl
    | cons l0 t =>
      simp only [concat_sources_with_opt_dropout]
      rcases hr : concat_sources (l0 :: t) s with e | p
      · rfl
      · obtain ⟨r, s1⟩ := p
        have ht : s1.trainFlag = TrainFlag.isFalse := by
          rcases concat_sources_state_cases hr with ⟨l, _, _, h⟩ | ⟨_, _, htf, _, _⟩
          · rw [h]; exact hf
          · rw [htf]; exact hf
        simp [ht]
  · intro r s' hok
    rcases concat_sources_state_cases hok with ⟨l, _, _, h⟩ | ⟨_, _, _, hrng, _⟩
    · rw [h]
    · exact hrng

/-- A concrete source output descriptor used by the witness states. -/
def demoSrc0 : DataVal :=
  { name := "src0_output"
    shape := [none, some 3]
    dim := 3
    sparse := false
    dtype := "float32"
    batch_dim_axis := some 0
    time_dim_axis := some 1
    placeholder := some (PH.externPH 0)
    size_placeholder := [(0, 0)] }

/-- A concrete evaluation-only state (train flag statically `False`). -/
def demoStateC2 : ConcatState :=
  { heap := [(0, demoSrc0)]
    next := 1
    cache := []
    rngCalls := 0
    trainFlag := TrainFlag.isFalse }

/-- C2 witness: with the train flag statically `False` and requested rate 1,
the dropout wrapper returns exactly the `concat_sources` result and the
random-call counter is unchanged. -/
theorem claim_C2_witness :
    concat_sources_with_opt_dropout [⟨10, 0⟩] 1 demoStateC2 =
      concat_sources [⟨10, 0⟩] demoStateC2 ∧
    demoStateC2.rngCalls = demoStateC2.rngCalls :=
  ⟨(claim_C2 [⟨10, 0⟩] 1 demoStateC2 rfl).1,
   (claim_C2 [⟨10, 0⟩] 1 demoStateC2 rfl).2 0 demoStateC2 rfl⟩

/-- A source whose `assert shape[-1]` passes has a non-`None`, non-zero last
static shape entry equal to its `lastStaticDim`. -/
theorem lastDimChecked_isOk_inv {o : DataVal}
    (h : (lastDimChecked o).isOk = true) :
    ∃ m, o.shape.getLast? = some (some m) ∧ m ≠ 0 ∧
      lastDimChecked o = .ok m ∧ lastStaticDim o = m := by
  unfold lastDimChecked at h
  rcases hg : o.shape.getLast? with _ | mo
  · rw [hg] at h; exact absurd h (by decide)
  · rcases mo with _ | m
    · rw [hg] at h; exact absurd h (by decide)
    · rcases m with _ | m'
      · rw [hg] at h; exact absurd h (by decide)
      · refine ⟨m' + 1, ?_, by omega, ?_, ?_⟩
        · rfl
        · simp only [lastDimChecked, hg]
        · simp only [lastStaticDim, hg]
          rfl

/-- A vanishing `shape.getLast?` never happens for a checked source, hence
its shape is non-empty. -/
theorem shape_ne_nil_of_lastDim {o : DataVal}
    (h : (lastDimChecked o).isOk = true) : o.shape ≠ [] := by
  obtain ⟨m, hg, -, -, -⟩ := lastDimChecked_isOk_inv h
  intro he
  rw [he] at hg
  simp at hg

/-- When every source passes `assert shape[-1]`, the template's dim loop
returns the sum of the last static shape entries. -/
theorem sumSourceDims_eq {l : List DataVal}
    (h : ∀ o ∈ l, (lastDimChecked o).isOk = true) :
    sumSourceDims l = .ok ((l.map lastStaticDim).sum) := by
  induction l with
  | nil => rfl
  | cons o t ih =>
    obtain ⟨m, -, -, hok, hlast⟩ := lastDimChecked_isOk_inv (h o (by simp))
    have ht := ih (fun x hx => h x (by simp [hx]))
    simp only [sumSourceDims, hok, ht, List.map_cons, List.sum_cons, hlast]

/-- A source satisfying all the per-source conditions passes the assertion
block of `concat_sources`. -/
theorem checkSourceForConcat_ok {data o : DataVal} {ps : List (Option Nat)}
    (hsp : o.sparse = false)
    (hdt : o.dtype = data.dtype)
    (ht : o.time_excl_batch = data.time_excl_batch)
    (hp : o.placeholder.isSome = true)
    (hpre : o.shape.dropLast = ps)
    (hld : (lastDimChecked o).isOk = true) :
    checkSourceForConcat data ps o = .ok () := by
  obtain ⟨m, hg, hm0, -, -⟩ := lastDimChecked_isOk_inv hld
  have hne := shape_ne_nil_of_lastDim hld
  obtain ⟨p, hpl⟩ := Option.isSome_iff_exists.mp hp
  simp [checkSourceForConcat, hsp, hdt, ht, hpl, hne, hpre, hg, hm0]

/-- The assertion loop passes when every source passes. -/
theorem checkSources_ok {data : DataVal} {ps : List (Option Nat)}
    {l : List DataVal}
    (h : ∀ o ∈ l, checkSourceForConcat data ps o = .ok ()) :
    checkSources data ps l = .ok () := by
  induction l with
  | nil => rfl
  | cons o t ih =>
    simp only [checkSources, h o (by simp), ih (fun x hx => h x (by simp [hx]))]

/-- Conversely, a passing assertion loop means every source passed. -/
theorem checkSources_ok_inv {data : DataVal} {ps : List (Option Nat)}
    {l : List DataVal}
    (h : checkSources data ps l = .ok ()) :
    ∀ o ∈ l, checkSourceForConcat data ps o = .ok () := by
  induction l with
  | nil => intro o ho; simp at ho
  | cons x t ih =>
    simp only [checkSources] at h
    rcases hx : checkSourceForConcat data ps x with e | u
    · rw [hx] at h; simp at h
    · rw [hx] at h
      dsimp only at h
      intro o ho
      cases ho with
      | head => cases u; exact hx
      | tail _ ho2 => exact ih h o ho2

/-- A source that passes the assertion block agrees with the template on
dtype, time-axis convention and non-feature shape. -/
theorem checkSourceForConcat_ok_inv {data o : DataVal} {ps : List (Option Nat)}
    (h : checkSourceForConcat data ps o = .ok ()) :
    o.dtype = data.dtype ∧ o.time_excl_batch = data.time_excl_batch ∧
      o.shape.dropLast = ps := by
  unfold checkSourceForConcat at h
  split at h
  · exact absurd h (by simp)
  · split at h
    · exact absurd h (by simp)
    · split at h
      · exact absurd h (by simp)
      · split at h
        · exact absurd h (by simp)
        · split at h
          · exact absurd h (by simp)
          · split at h
            · exact absurd h (by simp)
            · refine ⟨?_, ?_, ?_⟩ <;> tauto

/-- All placeholders present lets the `tf.concat` operand list be built. -/
theorem gatherPlaceholders_ok {a : Option Nat} {l : List DataVal}
    (h : ∀ o ∈ l, o.placeholder.isSome = true) :
    ∃ ps, gatherPlaceholders a l = .ok ps := by
  induction l with
  | nil => exact ⟨[], rfl⟩
  | cons o t ih =>
    obtain ⟨p, hp⟩ := Option.isSome_iff_exists.mp (h o (by simp))
    obtain ⟨ps, hps⟩ := ih (fun x hx => h x (by simp [hx]))
    exact ⟨PH.withBatchAxis a p :: ps, by simp only [gatherPlaceholders, hp, hps]⟩

/-- C1: `concat_sources` with exactly one source returns that source's
output descriptor object itself (same address, state untouched — no copy);
with two or more sources (cache miss) it builds and returns the descriptor
of `concat_sources_core`, whose feature dim is the sum of the sources' last
static shape entries whenever the sources agree on dtype, time-axis
convention and non-feature shape — and any disagreement in one of those is
a fatal error. -/
theorem claim_C1 :
    (∀ (l : Layer) (s : ConcatState), concat_sources [l] s = .ok (l.outputAddr, s)) ∧
    (∀ (l0 l1 : Layer) (rest : List Layer) (s : ConcatState) (outs : List DataVal),
       cacheGet s (List.map Layer.id (l0 :: l1 :: rest), (0 : ℚ)) = none →
       getOutputs s (l0 :: l1 :: rest) = .ok outs →
       (∀ e, concat_sources_core outs = .error e →
          concat_sources (l0 :: l1 :: rest) s = .error e) ∧
       (∀ data, concat_sources_core outs = .ok data →
          ∃ s', concat_sources (l0 :: l1 :: rest) s = .ok (s.next, s') ∧
            heapGet s' s.next = some data)) ∧
    (∀ (o0 o1 : DataVal) (os : List DataVal),
       (∀ o ∈ o0 :: o1 :: os, (lastDimChecked o).isOk = true) →
       (∀ o ∈ o0 :: o1 :: os, o.sparse = false) →
       (∀ o ∈ o0 :: o1 :: os, o.dtype = o0.dtype) →
       (∀ o ∈ o0 :: o1 :: os, o.time_excl_batch = o0.time_excl_batch) →
       (∀ o ∈ o0 :: o1 :: os, o.placeholder.isSome = true) →
       (∀ o ∈ o0 :: o1 :: os, o.shape.dropLast = o0.shape.dropLast) →
       ∃ d, concat_sources_core (o0 :: o1 :: os) = .ok d ∧
         d.dim = ((o0 :: o1 :: os).map lastStaticDim).sum) ∧
    (∀ (o0 : DataVal) (os : List DataVal) (o : DataVal), o ∈ o0 :: os →
       (o.dtype ≠ o0.dtype ∨ o.time_excl_batch ≠ o0.time_excl_batch ∨
        o.shape.dropLast ≠ o0.shape.dropLast) →
       (concat_sources_core (o0 :: os)).isOk = false) := by
  refine ⟨?_, ?_, ?_, ?_⟩
  · intro l s
    rfl
  · intro l0 l1 rest s outs hmiss houts
    constructor
    · intro e hcore
      simp only [concat_sources]
      rw [hmiss]
      dsimp only
      rw [houts]
      dsimp only
      rw [hcore]
    · intro data hcore
      have hne : ¬ (s.next + 1 = s.next) := by omega
      refine ⟨cachePut (allocD (allocD s data).2 data).2
          (List.map Layer.id (l0 :: l1 :: rest), (0 : ℚ))
          (allocD (allocD s data).2 data).1, ?_, ?_⟩
      · simp only [concat_sources]
        rw [hmiss]
        dsimp only
        rw [houts]
        dsimp only
        rw [hcore]
        rfl
      · simp [heapGet, cachePut, allocD, alookup, hne]
  · intro o0 o1 os Hld Hsp Hdt Ht Hp Hpre
    have hsum := sumSourceDims_eq Hld
    have htmpl : get_concat_sources_data_template (o0 :: o1 :: os) =
        .ok (concatTemplateVal o0 (((o0 :: o1 :: os).map lastStaticDim).sum)) := by
      unfold get_concat_sources_data_template
      rw [hsum]
    have hps : (concatTemplateVal o0 (((o0 :: o1 :: os).map lastStaticDim).sum)).shape.dropLast
        = o0.shape.dropLast := by
      show (o0.shape.dropLast ++ [some (((o0 :: o1 :: os).map lastStaticDim).sum)]).dropLast
        = o0.shape.dropLast
      rw [List.dropLast_concat]
    have hck : checkSources
        (concatTemplateVal o0 (((o0 :: o1 :: os).map lastStaticDim).sum))
        ((concatTemplateVal o0 (((o0 :: o1 :: os).map lastStaticDim).sum)).shape.dropLast)
        (o0 :: o1 :: os) = .ok () := by
      refine checkSources_ok (fun o ho => checkSourceForConcat_ok
        (Hsp o ho) (Hdt o ho) (Ht o ho) (Hp o ho) ?_ (Hld o ho))
      rw [hps]
      exact Hpre o ho
    obtain ⟨parts, hparts⟩ := gatherPlaceholders_ok
      (a := (concatTemplateVal o0 (((o0 :: o1 :: os).map lastStaticDim).sum)).batch_dim_axis) Hp
    refine ⟨{ concatTemplateVal o0 (((o0 :: o1 :: os).map lastStaticDim).sum) with
        placeholder := some (PH.concatPH
          ((concatTemplateVal o0 (((o0 :: o1 :: os).map
            lastStaticDim).sum)).shape.dropLast.length + 1) parts)
        size_placeholder := o0.size_placeholder }, ?_, ?_⟩
    · unfold concat_sources_core
      rw [htmpl]
      dsimp only
      rw [hck]
      dsimp only
      rw [hparts]
    · rfl
  · intro o0 os o ho hmis
    rcases hcore : concat_sources_core (o0 :: os) with e | d
    · rfl
    · exfalso
      unfold concat_sources_core at hcore
      rcases ht : get_concat_sources_data_template (o0 :: os) with e | data
      · rw [ht] at hcore; cases hcore
      · rw [ht] at hcore
        dsimp only at hcore
        rcases hck : checkSources data data.shape.dropLast (o0 :: os) with e | u
        · rw [hck] at hcore; cases hcore
        · rw [hck] at hcore
          obtain ⟨hdt, htb, hpre⟩ :=
            checkSourceForConcat_ok_inv (by cases u; exact checkSources_ok_inv hck o ho)
          unfold get_concat_sources_data_template at ht
          rcases hs : sumSourceDims (o0 :: os) with e | Sv
          · rw [hs] at ht; cases ht
          · rw [hs] at ht
            dsimp only at ht
            cases ht
            have hps2 : (concatTemplateVal o0 Sv).shape.dropLast = o0.shape.dropLast := by
              show (o0.shape.dropLast ++ [some Sv]).dropLast = o0.shape.dropLast
              rw [List.dropLast_concat]
            rw [hps2] at hpre
            rcases hmis with hm | hm | hm
            · exact hm hdt
            · exact hm htb
            · exact hm hpre

/-- A second source output, feature dim 2, same conventions as `demoSrc0`. -/
def demoSrcB : DataVal :=
  { name := "src1_output"
    shape := [none, some 2]
    dim := 2
    sparse := false
    dtype := "float32"
    batch_dim_axis := some 0
    time_dim_axis := some 1
    placeholder := some (PH.externPH 1)
    size_placeholder := [(0, 0)] }

/-- A source with a mismatching dtype. -/
def demoSrcC : DataVal :=
  { name := "src2_output"
    shape := [none, some 2]
    dim := 2
    sparse := false
    dtype := "int32"
    batch_dim_axis := some 0
    time_dim_axis := some 1
    placeholder := some (PH.externPH 2)
    size_placeholder := [(0, 0)] }

/-- C1 witness: one source is returned as-is (same address, same state);
the concatenation of two agreeing sources of dims 3 and 2 has dim 5 (the
sum of the last static shape entries); adding a dtype-mismatched source is
a fatal error. -/
theorem claim_C1_witness :
    concat_sources [⟨100, 0⟩] demoStateC2 = .ok (0, demoStateC2) ∧
    (∃ d, concat_sources_core [demoSrc0, demoSrcB] = .ok d ∧
       d.dim = ([demoSrc0, demoSrcB].map lastStaticDim).sum) ∧
    (concat_sources_core [demoSrc0, demoSrcC]).isOk = false :=
  ⟨claim_C1.1 ⟨100, 0⟩ demoStateC2,
   claim_C1.2.2.1 demoSrc0 demoSrcB [] (by decide) (by decide) (by decide)
     (by decide) (by decide) (by decide),
   claim_C1.2.2.2 demoSrc0 [demoSrcC] demoSrcC
     (List.Mem.tail _ (List.Mem.head _)) (Or.inl (by decide))⟩

/-- The concat/dropout cache invariant: every cached address was freshly
allocated below the allocation counter and is none of the source layers'
own output objects (cache entries are private copies). -/
abbrev cacheSane (s : ConcatState) (srcs : List Layer) : Prop :=
  ∀ p ∈ s.cache, p.2 < s.next ∧ ∀ l ∈ srcs, p.2 ≠ l.outputAddr

/-- Source layers' output descriptors are allocated objects. -/
abbrev layersAlloc (s : ConcatState) (srcs : List Layer) : Prop :=
  ∀ l ∈ srcs, l.outputAddr < s.next

/-- Writing through one address never changes what another address holds. -/
theorem heapGet_heapSet_ne {s : ConcatState} {a r : Nat} {v : DataVal}
    (h : a ≠ r) : heapGet (heapSet s r v) a = heapGet s a := by
  simp only [heapGet, heapSet, alookup]
  rw [if_neg (fun he => h he.symm)]

/-- Full description of the three successful paths of `concat_sources`:
the single-source identity, the cache hit (a fresh copy of the cached
object), and the cache miss (object built, a second copy stored). -/
theorem concat_sources_ok_detail {srcs : List Layer} {s : ConcatState}
    {r : Nat} {s₂ : ConcatState}
    (h : concat_sources srcs s = .ok (r, s₂)) :
    (∃ l, srcs = [l] ∧ r = l.outputAddr ∧ s₂ = s) ∨
    (∃ a0 v, 2 ≤ srcs.length ∧
       cacheGet s (srcs.map Layer.id, (0:ℚ)) = some a0 ∧
       heapGet s a0 = some v ∧ r = s.next ∧
       s₂ = { s with heap := (s.next, v) :: s.heap, next := s.next + 1 }) ∨
    (∃ data, 2 ≤ srcs.length ∧
       cacheGet s (srcs.map Layer.id, (0:ℚ)) = none ∧
       r = s.next ∧
       s₂ = { s with heap := (s.next + 1, data) :: (s.next, data) :: s.heap,
                     next := s.next + 2,
                     cache := ((srcs.map Layer.id, (0:ℚ)), s.next + 1) :: s.cache }) := by
  cases srcs with
  | nil => simp [concat_sources] at h
  | cons l0 t =>
    cases t with
    | nil =>
      left
      refine ⟨l0, rfl, ?_, ?_⟩ <;>
        simp only [concat_sources] at h <;> cases h <;> rfl
    | cons l1 t2 =>
      simp only [concat_sources] at h
      rcases hc : cacheGet s (List.map Layer.id (l0 :: l1 :: t2), (0:ℚ)) with _ | a
      · rw [hc] at h
        dsimp only at h
        rcases ho : getOutputs s (l0 :: l1 :: t2) with e | outs
        · rw [ho] at h; cases h
        · rw [ho] at h
          dsimp only at h
          rcases hcore : concat_sources_core outs with e | data
          · rw [hcore] at h; cases h
          · rw [hcore] at h
            simp only [allocD, cachePut] at h
            cases h
            exact Or.inr (Or.inr ⟨data, by simp, rfl, rfl, rfl⟩)
      · rw [hc] at h
        dsimp only at h
        rcases hg : heapGet s a with _ | v
        · rw [hg] at h; cases h
        · rw [hg] at h
          simp only [allocD] at h
          cases h
          exact Or.inr (Or.inl ⟨a, v, by simp, rfl, hg, rfl, rfl⟩)

/-- After a successful `concat_sources` under the cache invariant, the
returned address is below the new allocation bound and every cached
address stays below it and differs from the returned address. -/
theorem concat_cache_entry_bound {srcs : List Layer} {s : ConcatState}
    {r : Nat} {s₂ : ConcatState}
    (hsane : cacheSane s srcs) (halloc : layersAlloc s srcs)
    (h : concat_sources srcs s = .ok (r, s₂)) :
    s.next ≤ s₂.next ∧ r < s₂.next ∧
      ∀ key a, cacheGet s₂ key = some a → a < s₂.next ∧ a ≠ r := by
  rcases concat_sources_ok_detail h with
    ⟨l, hsrcs, hr, hs2⟩ | ⟨a0, v, hlen, hc0, hg0, hr, hs2⟩ | ⟨data, hlen, hc0, hr, hs2⟩
  · subst hs2 hr hsrcs
    refine ⟨le_refl _, halloc l (by simp), ?_⟩
    intro key a hka
    have hmem := alookup_mem hka
    exact ⟨(hsane _ hmem).1.trans_le (le_refl _), (hsane _ hmem).2 l (by simp)⟩
  · subst hs2 hr
    refine ⟨by simp, by simp, ?_⟩
    intro key a hka
    have hmem := alookup_mem hka
    have hb := (hsane _ hmem).1
    exact ⟨by simp; omega, by omega⟩
  · subst hs2 hr
    refine ⟨by simp, by simp, ?_⟩
    intro key a hka
    simp only [cacheGet, alookup] at hka
    split at hka
    · cases hka
      exact ⟨by simp, by omega⟩
    · have hmem := alookup_mem hka
      have hb := (hsane _ hmem).1
      exact ⟨by simp; omega, by omega⟩

/-- Looking up any key after one cache store yields either the stored
address or an address already cached before. -/
theorem cacheGet_cachePut_cases {s : ConcatState} {k0 key : List Nat × ℚ}
    {c a : Nat} (h : cacheGet (cachePut s k0 c) key = some a) :
    a = c ∨ cacheGet s key = some a := by
  simp only [cacheGet, cachePut, alookup] at h
  by_cases hk : k0 = key
  · rw [if_pos hk] at h
    cases h
    exact Or.inl rfl
  · rw [if_neg hk] at h
    exact Or.inr h

/-- C8: under the cache invariant (cached addresses are private allocated
copies), the address returned by `concat_sources` differs from every cached
address after the call, so overwriting the returned descriptor never
alters any cached entry (frame property); a freshly stored entry holds a
copy of the very descriptor handed to the caller; a cache hit hands back a
fresh copy of the stored descriptor; and all of this also holds for
`concat_sources_with_opt_dropout`, whose in-place placeholder mutation
therefore cannot touch the cache either. -/
theorem claim_C8 :
    (∀ (srcs : List Layer) (s : ConcatState) (r : Nat) (s₂ : ConcatState),
       cacheSane s srcs → layersAlloc s srcs →
       concat_sources srcs s = .ok (r, s₂) →
       ∀ key a, cacheGet s₂ key = some a →
         a ≠ r ∧
         (∀ v, heapGet (heapSet s₂ r v) a = heapGet s₂ a) ∧
         (cacheGet s key = none → heapGet s₂ a = heapGet s₂ r)) ∧
    (∀ (srcs : List Layer) (s : ConcatState) (r : Nat) (s₂ : ConcatState) (a0 : Nat),
       2 ≤ srcs.length →
       cacheGet s (srcs.map Layer.id, (0:ℚ)) = some a0 →
       concat_sources srcs s = .ok (r, s₂) →
       heapGet s₂ r = heapGet s a0) ∧
    (∀ (srcs : List Layer) (dropout : ℚ) (s : ConcatState) (r : Nat) (s₂ : ConcatState),
       cacheSane s srcs → layersAlloc s srcs →
       concat_sources_with_opt_dropout srcs dropout s = .ok (r, s₂) →
       ∀ key a, cacheGet s₂ key = some a →
         a ≠ r ∧ (∀ v, heapGet (heapSet s₂ r v) a = heapGet s₂ a)) := by
  refine ⟨?_, ?_, ?_⟩
  · intro srcs s r s₂ hsane halloc h key a hka
    have hb := concat_cache_entry_bound hsane halloc h
    have hne : a ≠ r := (hb.2.2 key a hka).2
    refine ⟨hne, fun v => heapGet_heapSet_ne hne, ?_⟩
    intro hnone
    rcases concat_sources_ok_detail h with
      ⟨l, hsrcs, hr, hs2⟩ | ⟨a0, v, hlen, hc0, hg0, hr, hs2⟩ | ⟨data, hlen, hc0, hr, hs2⟩
    · subst hs2
      rw [hnone] at hka
      cases hka
    · subst hs2
      have : cacheGet s key = some a := hka
      rw [hnone] at this
      cases this
    · subst hs2 hr
      simp only [cacheGet, alookup] at hka
      split at hka
      · cases hka
        have hnn : ¬ (s.next + 1 = s.next) := by omega
        simp [heapGet, alookup, hnn]
      · have : cacheGet s key = some a := hka
        rw [hnone] at this
        cases this
  · intro srcs s r s₂ a0 hlen hc0 h
    rcases concat_sources_ok_detail h with
      ⟨l, hsrcs, hr, hs2⟩ | ⟨a0', v, hlen', hc0', hg0, hr, hs2⟩ | ⟨data, hlen', hc0', hr, hs2⟩
    · subst hsrcs
      simp at hlen
    · subst hs2 hr
      rw [hc0] at hc0'
      cases hc0'
      have : heapGet { s with heap := (s.next, v) :: s.heap, next := s.next + 1 } s.next
          = some v := by
        simp [heapGet, alookup]
      rw [this, hg0]
    · rw [hc0] at hc0'
      cases hc0'
  · intro srcs dropout s r s₂ hsane halloc h key a hka
    have main : a ≠ r := by
      cases srcs with
      | nil => simp [concat_sources_with_opt_dropout] at h
      | cons l0 t =>
        simp only [concat_sources_with_opt_dropout] at h
        rcases hcs : concat_sources (l0 :: t) s with e | p
        · rw [hcs] at h; cases h
        · rw [hcs] at h
          dsimp only at h
          obtain ⟨addr, s1⟩ := p
          have hb := concat_cache_entry_bound hsane halloc hcs
          by_cases hd0 : (if s1.trainFlag = TrainFlag.isFalse then (0:ℚ) else dropout) = 0
          · rw [if_pos hd0] at h
            cases h
            exact (hb.2.2 key a hka).2
          · rw [if_neg hd0] at h
            rcases hch : cacheGet s1 (List.map Layer.id (l0 :: t),
                if s1.trainFlag = TrainFlag.isFalse then (0:ℚ) else dropout) with _ | a0
            · rw [hch] at h
              dsimp only at h
              by_cases hq : 0 < (if s1.trainFlag = TrainFlag.isFalse then (0:ℚ) else dropout) ∧
                  (if s1.trainFlag = TrainFlag.isFalse then (0:ℚ) else dropout) < 1
              · rw [if_pos hq] at h
                rcases hga : heapGet s1 addr with _ | v
                · rw [hga] at h; cases h
                · rw [hga] at h
                  dsimp only at h
                  rcases hpl : v.placeholder with _ | p
                  · rw [hpl] at h; cases h
                  · rw [hpl] at h
                    simp only [allocD] at h
                    cases h
                    rcases cacheGet_cachePut_cases hka with hac | hold
                    · rw [hac]
                      have h1 := hb.2.1
                      show s1.next ≠ r
                      omega
                    · exact (hb.2.2 key a hold).2
              · rw [if_neg hq] at h; cases h
            · rw [hch] at h
              dsimp only at h
              rcases hga : heapGet s1 a0 with _ | v
              · rw [hga] at h; cases h
              · rw [hga] at h
                simp only [allocD] at h
                cases h
                have hka' : cacheGet s1 key = some a := hka
                have hlt := (hb.2.2 key a hka').1
                show a ≠ s1.next
                omega
    exact ⟨main, fun v => heapGet_heapSet_ne main⟩

/-- A state whose cache already holds a private copy (address 5) for the
two-source key, with both source outputs allocated. -/
def demoStateW : ConcatState :=
  { heap := [(0, demoSrc0), (1, demoSrcB), (5, demoSrc0)]
    next := 6
    cache := [(([100, 101], (0:ℚ)), 5)]
    rngCalls := 0
    trainFlag := TrainFlag.dynamic }

/-- `demoStateW` after the cache hit: a fresh copy at address 6. -/
def demoStateWHit : ConcatState :=
  { demoStateW with heap := (6, demoSrc0) :: demoStateW.heap, next := 7 }

/-- C8 witness: a single-source call returns address 0 while the cached
address 5 stays distinct and is untouched by any write through address 0;
the two-source cache hit returns a fresh copy (address 6) of the stored
descriptor; and the dropout wrapper keeps the same separation. -/
theorem claim_C8_witness :
    ((5 : Nat) ≠ 0 ∧
      (∀ v, heapGet (heapSet demoStateW 0 v) 5 = heapGet demoStateW 5) ∧
      (cacheGet demoStateW ([100, 101], (0:ℚ)) = none →
        heapGet demoStateW 5 = heapGet demoStateW 0)) ∧
    heapGet demoStateWHit 6 = heapGet demoStateW 5 ∧
    ((5 : Nat) ≠ 0 ∧
      (∀ v, heapGet (heapSet demoStateW 0 v) 5 = heapGet demoStateW 5)) :=
  ⟨claim_C8.1 [⟨100, 0⟩] demoStateW 0 demoStateW (by decide) (by decide) rfl
     ([100, 101], (0:ℚ)) 5 rfl,
   claim_C8.2.1 [⟨100, 0⟩, ⟨101, 1⟩] demoStateW 6 demoStateWHit 5 (by decide) rfl rfl,
   claim_C8.2.2 [⟨100, 0⟩] 0 demoStateW 0 demoStateW (by decide) (by decide) rfl
     ([100, 101], (0:ℚ)) 5 rfl⟩

/-- C9: a layer built with a loss but no (truthy) explicit target gets the
network's default target key — in `__init__` and in
`get_out_data_from_opts` via the identical defaulting — and with no
explicit `out_type`/`n_out` the inferred output feature width is the
default target's dimensionality adjusted through the loss's
`get_auto_output_layer_dim`. -/
theorem claim_C9 :
    (∀ (net : NetModel) (l : LossKind) (target : Option String),
       strOptTruthy target = false →
       LayerBase.effective_target (some l) target net = some net.default_target) ∧
    (∀ (net : NetModel) (name : String) (l : LossKind) (target : Option String)
       (sources : List DataVal) (D : Nat),
       strOptTruthy target = false →
       net.default_target ≠ "" →
       net.default_target ≠ "none" →
       alookup net.default_target net.extern_data = some D →
       Loss.get_auto_output_layer_dim l D ≠ 0 →
       ∃ out, LayerBase.get_out_data_from_opts net name none none target sources (some l)
           = .ok out ∧ out.dim = Loss.get_auto_output_layer_dim l D) := by
  constructor
  · intro net l target htr
    simp [LayerBase.effective_target, htr]
  · intro net name l target sources D htr hne1 hne2 hlook hM
    have htar : LayerBase.effective_target (some l) target net = some net.default_target := by
      simp [LayerBase.effective_target, htr]
    have hdim : static_get_target_dim (some net.default_target) net = .ok (some D) := by
      simp [static_get_target_dim, hne1, hne2, hlook]
    simp only [LayerBase.get_out_data_from_opts, htar, hdim]
    simp only [Option.isNone_none, true_and, strOptTruthy, hne1, ne_eq,
      not_false_eq_true, decide_True, if_true, ite_true]
    cases sources with
    | nil =>
      simp [hM, dataFromOutType]
    | cons s0 rest =>
      simp only [hM, dataFromOutType]
      simp [hM]
      split <;> exact ⟨_, rfl, rfl⟩

/-- A network with external data `"data"` (dim 5) and default target
`"classes"` (dim 4). -/
def demoNet : NetModel :=
  { default_target := "classes"
    extern_data := [("data", 5), ("classes", 4)]
    layers := [] }

/-- C9 witness: a CTC-loss layer without explicit target defaults to
`"classes"` and infers output width `4 + 1 = 5` through the blank-label
adjustment. -/
theorem claim_C9_witness :
    LayerBase.effective_target (some LossKind.ctc) none demoNet =
      some demoNet.default_target ∧
    (∃ out, LayerBase.get_out_data_from_opts demoNet "output" none none none
        [demoSrc0] (some LossKind.ctc) = .ok out ∧
      out.dim = Loss.get_auto_output_layer_dim LossKind.ctc 4) :=
  ⟨claim_C9.1 demoNet LossKind.ctc none rfl,
   claim_C9.2 demoNet "output" LossKind.ctc none [demoSrc0] 4 rfl
     (by decide) (by decide) (by decide) (by decide)⟩
